import Mathlib

/-!
Shallow embedding of `src/functions/ProcessWaitlistEntries.js`, an Azure
Function that reads a Google-Sheets waitlist, sends a welcome email through
the Microsoft Graph API for every row not yet marked as sent, and marks each
such row.  The remote spreadsheet is modelled as a `List Row`; its fields are
`Option String` because a cell read with `row.get` yields either a string or
`undefined`.  Remote effects (email sends, row writes) are recorded in an
event trace; the mail API is modelled by an oracle `sendErr : String → Option
String` giving, per recipient address, either success (`none`) or the message
of the exception it throws (`some msg`).
-/

namespace Waitlist

/-- One spreadsheet row: the values of the "Email" and "EmailSent" columns,
each possibly `undefined` (modelled as `none`). -/
structure Row where
  email : Option String
  emailSent : Option String
deriving DecidableEq

/-- An element of the list built by `getNewWaitlistEntries`
(JS: `{ email: email, rowIndex: i }`). -/
structure Entry where
  email : String
  rowIndex : Nat
deriving DecidableEq

/-- An observable remote side effect of the handler: a successful email send
(JS `sendSpikeWelcomeEmail`) or a successful mark-write (JS
`markUserAsEmailed`, i.e. `rows[rowIndex].save()`). -/
inductive Event where
  | send (email : String)
  | mark (rowIndex : Nat)
deriving DecidableEq

/-- Result of one handler invocation: the HTTP-style response set on
`context.res`, the final spreadsheet state, and the trace of side effects. -/
structure HandlerResult where
  status : Nat
  body : String
  sheet : List Row
  trace : List Event
deriving DecidableEq

/-- JS `String.prototype.toLowerCase`, modelled character by character
(the comparison target "true" is ASCII, so the ASCII lowering of
`Char.toLower` is the relevant behaviour). -/
def jsToLowerCase (s : String) : String :=
  String.mk (s.data.map Char.toLower)

/-- The eligibility test of the filter loop in `getNewWaitlistEntries`
(JS line 66): `email && (!emailSent || emailSent.toLowerCase() !== 'true')`.
A JS string is truthy iff it is defined and non-empty. -/
def rowEligible (r : Row) : Bool :=
  match r.email, r.emailSent with
  | none, _ => false
  | some e, none => e != ""
  | some e, some s => e != "" && (s == "" || jsToLowerCase s != "true")

/-- The entry pushed onto `newUsers` for an eligible row at index `i`. -/
def eligEntry (r : Row) (i : Nat) : Entry :=
  { email := r.email.getD "", rowIndex := i }

/-- The filter loop of `getNewWaitlistEntries` (JS lines 61-72), scanning the
row list from index `i`. -/
def entriesFrom : List Row → Nat → List Entry
  | [], _ => []
  | r :: rest, i =>
    if rowEligible r then eligEntry r i :: entriesFrom rest (i + 1)
    else entriesFrom rest (i + 1)

/-- JS `getNewWaitlistEntries`, applied to the row list fetched from the
sheet: returns the `{email, rowIndex}` entries of eligible rows in row
order.  (The authentication and fetch are I/O; the fetched rows are the
argument.  The credential construction is modelled separately in
`getNewWaitlistEntriesAuth`.) -/
def getNewWaitlistEntries (rows : List Row) : List Entry :=
  entriesFrom rows 0

/-- Marking a row: JS `row.set('EmailSent', 'true')` changes only the
"EmailSent" cell. -/
def markRow (r : Row) : Row :=
  { r with emailSent := some "true" }

/-- JS `markUserAsEmailed` (lines 202-217), applied to the freshly reloaded
row list: set the "EmailSent" cell of `rows[rowIndex]` to `"true"` and save.
When `rowIndex` is out of bounds, `rows[rowIndex]` is `undefined` and the
member access throws a TypeError. -/
def markUserAsEmailed (sheet : List Row) (rowIndex : Nat) : Except String (List Row) :=
  match sheet[rowIndex]? with
  | none => Except.error "Cannot read properties of undefined (reading set)"
  | some r => Except.ok (sheet.set rowIndex (markRow r))

/-- The `for (const user of newWaitlistUsers)` loop of the handler (JS lines
20-24): for each entry, send the welcome email, then mark the row.  The mail
oracle `sendErr` gives `some msg` when the mail API throws on that recipient.
On an exception the loop aborts, yielding the error message, the sheet state
and the trace accumulated so far. -/
def processLoop (sendErr : String → Option String) :
    List Entry → List Row → Except (String × List Row × List Event) (List Row × List Event)
  | [], sheet => Except.ok (sheet, [])
  | u :: rest, sheet =>
    match sendErr u.email with
    | some msg => Except.error (msg, sheet, [])
    | none =>
      match markUserAsEmailed sheet u.rowIndex with
      | Except.error msg => Except.error (msg, sheet, [Event.send u.email])
      | Except.ok sheet2 =>
        match processLoop sendErr rest sheet2 with
        | Except.ok (sheet3, tr) =>
          Except.ok (sheet3, Event.send u.email :: Event.mark u.rowIndex :: tr)
        | Except.error (msg, sheet3, tr) =>
          Except.error (msg, sheet3, Event.send u.email :: Event.mark u.rowIndex :: tr)

/-- The exported handler (JS `module.exports`, lines 12-43): fetch the
eligible entries; if none, answer 200 "No new waitlist entries to process";
otherwise run the send-then-mark loop, answering 200 with the count on
success and 500 with the error message when anything throws. -/
def runHandler (rows : List Row) (sendErr : String → Option String) : HandlerResult :=
  let newWaitlistUsers := getNewWaitlistEntries rows
  if newWaitlistUsers.length > 0 then
    match processLoop sendErr newWaitlistUsers rows with
    | Except.ok (sheet2, tr) =>
      { status := 200
        body := "Successfully sent emails to " ++ toString newWaitlistUsers.length
          ++ " new waitlist entries"
        sheet := sheet2
        trace := tr }
    | Except.error (msg, sheet2, tr) =>
      { status := 500
        body := "Error processing waitlist: " ++ msg
        sheet := sheet2
        trace := tr }
  else
    { status := 200, body := "No new waitlist entries to process", sheet := rows, trace := [] }

/-- The expected side-effect trace for a list of entries processed fully
successfully: a send immediately followed by a mark, entry by entry. -/
def traceOf (es : List Entry) : List Event :=
  es.flatMap fun e => [Event.send e.email, Event.mark e.rowIndex]

/-- The environment variables the code reads (JS lines 48-49, 53, 80-82),
each possibly unset. -/
structure Env where
  googleServiceAccountEmail : Option String
  googlePrivateKey : Option String
  spreadsheetId : Option String
  tenantId : Option String
  clientId : Option String
  clientSecret : Option String
deriving DecidableEq

/-- JS `key.replace(/\\n/g, '\n')` on the private key. -/
def replaceEscapedNewlines : List Char → List Char
  | [] => []
  | '\\' :: 'n' :: rest => '\n' :: replaceEscapedNewlines rest
  | c :: rest => c :: replaceEscapedNewlines rest

/-- The argument object of `new JWT({...})` in `getNewWaitlistEntries`
(JS lines 47-51). -/
structure JWTInput where
  email : Option String
  key : String
  scopes : List String
deriving DecidableEq

/-- The credential construction of `getNewWaitlistEntries` (JS lines 47-51):
no presence check is made on any variable; the only failure on a missing
variable is the TypeError thrown by calling `.replace` on `undefined` when
`GOOGLE_PRIVATE_KEY` is unset. -/
def getNewWaitlistEntriesAuth (env : Env) : Except String JWTInput :=
  match env.googlePrivateKey with
  | none => Except.error "Cannot read properties of undefined (reading replace)"
  | some k =>
    Except.ok
      { email := env.googleServiceAccountEmail
        key := String.mk (replaceEscapedNewlines k.data)
        scopes := ["https://www.googleapis.com/auth/spreadsheets"] }

/-- The argument triple of `new ClientSecretCredential(...)` in
`getGraphClient` (JS lines 79-83). -/
structure GraphCredentialInput where
  tenantId : Option String
  clientId : Option String
  clientSecret : Option String
deriving DecidableEq

/-- The credential construction of `getGraphClient` (JS lines 77-93): the
three variables are passed through unchecked; a missing one raises no error
here. -/
def getGraphClientCredential (env : Env) : GraphCredentialInput :=
  { tenantId := env.tenantId, clientId := env.clientId, clientSecret := env.clientSecret }

/-- Modelled from the spec (refinement predicate for C1, following the
spec's words, to be compared with `rowEligible` from the source): a row is
eligible when its email field is a non-empty string and its sent field is
absent, empty, or not case-insensitively equal to "true". -/
def specEligible (r : Row) : Bool :=
  (match r.email with
   | none => false
   | some e => e != "") &&
  (match r.emailSent with
   | none => true
   | some s => s == "" || jsToLowerCase s != "true")

/-- The three-row scenario of the spec (section 8). -/
def demoRows : List Row :=
  [ { email := some "a@x.com", emailSent := some "" }
  , { email := some "b@x.com", emailSent := some "true" }
  , { email := some "", emailSent := some "" } ]

/-- A mail oracle on which every send succeeds. -/
def demoSend : String → Option String := fun _ => none

end Waitlist

namespace Waitlist

theorem specEligible_eq_rowEligible (r : Row) : specEligible r = rowEligible r := by
  rcases r with ⟨e, s⟩
  rcases e with _ | e <;> rcases s with _ | s <;>
    simp [specEligible, rowEligible]

theorem mem_entriesFrom {x : Entry} :
    ∀ (l : List Row) (i : Nat),
      x ∈ entriesFrom l i ↔
        ∃ j r, l[j]? = some r ∧ rowEligible r = true ∧ x = eligEntry r (i + j) := by
  intro l
  induction l with
  | nil => intro i; simp [entriesFrom]
  | cons r rest ih =>
    intro i
    by_cases h : rowEligible r
    · simp only [entriesFrom, h, if_pos, List.mem_cons, ih (i + 1)]
      constructor
      · rintro (rfl | ⟨j, r', hg, he, rfl⟩)
        · exact ⟨0, r, by simp, h, by simp⟩
        · exact ⟨j + 1, r', by simpa using hg, he, by simp [Nat.add_comm, Nat.add_assoc, Nat.add_left_comm]⟩
      · rintro ⟨j, r', hg, he, rfl⟩
        match j with
        | 0 =>
          simp only [List.getElem?_cons_zero, Option.some.injEq] at hg
          subst hg; left; simp
        | j + 1 =>
          right
          refine ⟨j, r', by simpa using hg, he, ?_⟩
          simp [Nat.add_comm, Nat.add_assoc, Nat.add_left_comm]
    · simp only [entriesFrom, h, if_neg, Bool.false_eq_true, not_false_iff, ih (i + 1)]
      constructor
      · rintro ⟨j, r', hg, he, rfl⟩
        exact ⟨j + 1, r', by simpa using hg, he, by simp [Nat.add_comm, Nat.add_assoc, Nat.add_left_comm]⟩
      · rintro ⟨j, r', hg, he, rfl⟩
        match j with
        | 0 =>
          simp only [List.getElem?_cons_zero, Option.some.injEq] at hg
          subst hg; exact absurd he (by simpa using h)
        | j + 1 =>
          refine ⟨j, r', by simpa using hg, he, ?_⟩
          simp [Nat.add_comm, Nat.add_assoc, Nat.add_left_comm]

theorem rowIndex_ge_of_mem_entriesFrom {x : Entry} {l : List Row} {i : Nat}
    (h : x ∈ entriesFrom l i) : i ≤ x.rowIndex := by
  rcases (mem_entriesFrom l i).mp h with ⟨j, r, _, _, rfl⟩
  simp [eligEntry]

theorem rowIndex_lt_of_mem_entriesFrom {x : Entry} {l : List Row} {i : Nat}
    (h : x ∈ entriesFrom l i) : x.rowIndex < i + l.length := by
  rcases (mem_entriesFrom l i).mp h with ⟨j, r, hg, _, rfl⟩
  have hj : j < l.length := (List.getElem?_eq_some.mp hg).1
  simp [eligEntry]
  omega

theorem pairwise_entriesFrom :
    ∀ (l : List Row) (i : Nat),
      List.Pairwise (fun a b => a.rowIndex < b.rowIndex) (entriesFrom l i) := by
  intro l
  induction l with
  | nil => intro i; simp [entriesFrom]
  | cons r rest ih =>
    intro i
    by_cases h : rowEligible r
    · simp only [entriesFrom, h, if_pos]
      refine List.pairwise_cons.mpr ⟨?_, ih (i + 1)⟩
      intro b hb
      have := rowIndex_ge_of_mem_entriesFrom hb
      simp [eligEntry]
      omega
    · simpa [entriesFrom, h] using ih (i + 1)

theorem email_eq_of_rowEligible {r : Row} (h : rowEligible r = true) :
    r.email = some (r.email.getD "") := by
  rcases r with ⟨_ | e, s⟩
  · rcases s with _ | s <;> simp [rowEligible] at h
  · rfl

theorem markRow_markRow (r : Row) : markRow (markRow r) = markRow r := rfl

theorem markUserAsEmailed_ok {sheet : List Row} {i : Nat} {r : Row}
    (h : sheet[i]? = some r) :
    markUserAsEmailed sheet i = Except.ok (sheet.set i (markRow r)) := by
  simp [markUserAsEmailed, h]

theorem processLoop_ok (sendErr : String → Option String) :
    ∀ (es : List Entry) (sheet : List Row),
      (∀ e ∈ es, sendErr e.email = none) →
      (∀ e ∈ es, e.rowIndex < sheet.length) →
      ∃ sheet2,
        processLoop sendErr es sheet = Except.ok (sheet2, traceOf es) ∧
        sheet2.length = sheet.length ∧
        (∀ j, (∃ e ∈ es, e.rowIndex = j) → sheet2[j]? = (sheet[j]?).map markRow) ∧
        (∀ j, (∀ e ∈ es, e.rowIndex ≠ j) → sheet2[j]? = sheet[j]?) := by
  intro es
  induction es with
  | nil =>
    intro sheet _ _
    exact ⟨sheet, rfl, rfl, by simp, fun _ _ => rfl⟩
  | cons u rest ih =>
    intro sheet hsend hb
    have hu : sendErr u.email = none := hsend u (by simp)
    have hub : u.rowIndex < sheet.length := hb u (by simp)
    have hget : sheet[u.rowIndex]? = some sheet[u.rowIndex] :=
      List.getElem?_eq_getElem hub
    set sheet1 := sheet.set u.rowIndex (markRow sheet[u.rowIndex]) with hs1
    have hlen1 : sheet1.length = sheet.length := List.length_set ..
    obtain ⟨sheet2, hrun, hlen, hmarked, hkept⟩ :=
      ih sheet1 (fun e he => hsend e (by simp [he]))
        (fun e he => by rw [hlen1]; exact hb e (by simp [he]))
    have hget1 : sheet1[u.rowIndex]? = some (markRow sheet[u.rowIndex]) := by
      rw [hs1, List.getElem?_set_self', hget]; rfl
    refine ⟨sheet2, ?_, by rw [hlen, hlen1], ?_, ?_⟩
    · simp only [processLoop, hu, markUserAsEmailed_ok hget, ← hs1, hrun, traceOf,
        List.flatMap_cons]
      rfl
    · rintro j ⟨e, he, rfl⟩
      rcases List.mem_cons.mp he with rfl | hrest
      · by_cases hj : ∃ q ∈ rest, q.rowIndex = e.rowIndex
        · rw [hmarked e.rowIndex hj, hget1, hget]
          simp [markRow_markRow]
        · push_neg at hj
          rw [hkept e.rowIndex hj, hget1, hget]
          rfl
      · by_cases hj : e.rowIndex = u.rowIndex
        · rw [hmarked e.rowIndex ⟨e, hrest, rfl⟩, hj, hget1, hget]
          simp [markRow_markRow]
        · rw [hmarked e.rowIndex ⟨e, hrest, rfl⟩, hs1, List.getElem?_set_ne (fun h => hj h.symm)]
    · intro j hj
      have hju : u.rowIndex ≠ j := hj u (by simp)
      rw [hkept j (fun e he => hj e (by simp [he])), hs1, List.getElem?_set_ne hju]

theorem processLoop_err (sendErr : String → Option String) {msg : String} (u : Entry)
    (post : List Entry) (hu : sendErr u.email = some msg) :
    ∀ (pre : List Entry) (sheet : List Row),
      (∀ e ∈ pre, sendErr e.email = none) →
      (∀ e ∈ pre, e.rowIndex < sheet.length) →
      ∃ sheet2,
        processLoop sendErr (pre ++ u :: post) sheet = Except.error (msg, sheet2, traceOf pre) ∧
        sheet2.length = sheet.length ∧
        (∀ j, (∃ e ∈ pre, e.rowIndex = j) → sheet2[j]? = (sheet[j]?).map markRow) ∧
        (∀ j, (∀ e ∈ pre, e.rowIndex ≠ j) → sheet2[j]? = sheet[j]?) := by
  intro pre
  induction pre with
  | nil =>
    intro sheet _ _
    refine ⟨sheet, ?_, rfl, by simp, fun _ _ => rfl⟩
    simp [processLoop, hu, traceOf]
  | cons p rest ih =>
    intro sheet hsend hb
    have hp : sendErr p.email = none := hsend p (by simp)
    have hpb : p.rowIndex < sheet.length := hb p (by simp)
    have hget : sheet[p.rowIndex]? = some sheet[p.rowIndex] :=
      List.getElem?_eq_getElem hpb
    set sheet1 := sheet.set p.rowIndex (markRow sheet[p.rowIndex]) with hs1
    have hlen1 : sheet1.length = sheet.length := List.length_set ..
    obtain ⟨sheet2, hrun, hlen, hmarked, hkept⟩ :=
      ih sheet1 (fun e he => hsend e (by simp [he]))
        (fun e he => by rw [hlen1]; exact hb e (by simp [he]))
    have hget1 : sheet1[p.rowIndex]? = some (markRow sheet[p.rowIndex]) := by
      rw [hs1, List.getElem?_set_self', hget]; rfl
    refine ⟨sheet2, ?_, by rw [hlen, hlen1], ?_, ?_⟩
    · simp only [List.cons_append, processLoop, hp, markUserAsEmailed_ok hget, ← hs1,
        List.append_eq, hrun, traceOf, List.flatMap_cons, List.nil_append]
    · rintro j ⟨e, he, rfl⟩
      rcases List.mem_cons.mp he with rfl | hrest
      · by_cases hj : ∃ q ∈ rest, q.rowIndex = e.rowIndex
        · rw [hmarked e.rowIndex hj, hget1, hget]
          simp [markRow_markRow]
        · push_neg at hj
          rw [hkept e.rowIndex hj, hget1, hget]
          rfl
      · by_cases hj : e.rowIndex = p.rowIndex
        · rw [hmarked e.rowIndex ⟨e, hrest, rfl⟩, hj, hget1, hget]
          simp [markRow_markRow]
        · rw [hmarked e.rowIndex ⟨e, hrest, rfl⟩, hs1, List.getElem?_set_ne (fun h => hj h.symm)]
    · intro j hj
      have hjp : p.rowIndex ≠ j := hj p (by simp)
      rw [hkept j (fun e he => hj e (by simp [he])), hs1, List.getElem?_set_ne hjp]

/-- C1: the eligible set computed by `getNewWaitlistEntries` contains an
entry for row `i` exactly when that row satisfies the spec's eligibility
predicate (email a non-empty string; sent field absent, empty, or not
case-insensitively "true"); every such row is included and every other row
is excluded, for every list of input rows. -/
theorem eligible_iff_specEligible (rows : List Row) (i : Nat) (r : Row)
    (hr : rows[i]? = some r) :
    (∃ e ∈ getNewWaitlistEntries rows, e.rowIndex = i) ↔ specEligible r = true := by
  rw [specEligible_eq_rowEligible]
  constructor
  · rintro ⟨e, he, rfl⟩
    rcases (mem_entriesFrom rows 0).mp he with ⟨j, r', hg, helig, rfl⟩
    simp only [eligEntry, Nat.zero_add] at hr
    rw [hr] at hg
    cases hg
    exact helig
  · intro helig
    refine ⟨eligEntry r i, ?_, rfl⟩
    exact (mem_entriesFrom rows 0).mpr ⟨i, r, hr, helig, by simp⟩

theorem eligible_iff_specEligible_witness :
    (demoRows[0]? = some { email := some "a@x.com", emailSent := some "" } ∧
      ((∃ e ∈ getNewWaitlistEntries demoRows, e.rowIndex = 0) ↔
        specEligible { email := some "a@x.com", emailSent := some "" } = true)) ∧
    (demoRows[1]? = some { email := some "b@x.com", emailSent := some "true" } ∧
      ((∃ e ∈ getNewWaitlistEntries demoRows, e.rowIndex = 1) ↔
        specEligible { email := some "b@x.com", emailSent := some "true" } = true)) :=
  ⟨⟨by decide, eligible_iff_specEligible demoRows 0 _ (by decide)⟩,
   ⟨by decide, eligible_iff_specEligible demoRows 1 _ (by decide)⟩⟩

/-- A sheet on which every row already carries a sent marker. -/
def allSentRows : List Row :=
  [ { email := some "a@x.com", emailSent := some "true" }
  , { email := some "b@x.com", emailSent := some "TRUE" } ]

/-- C3: whenever the eligible set is empty, the handler answers 200 with
body "No new waitlist entries to process", the sheet is untouched and no
send or mark event occurs (empty trace). -/
theorem handler_empty_eligible (rows : List Row) (sendErr : String → Option String)
    (h : getNewWaitlistEntries rows = []) :
    runHandler rows sendErr =
      { status := 200, body := "No new waitlist entries to process"
        sheet := rows, trace := [] } := by
  simp [runHandler, h]

theorem handler_empty_eligible_witness :
    getNewWaitlistEntries allSentRows = [] ∧
    runHandler allSentRows demoSend =
      { status := 200, body := "No new waitlist entries to process"
        sheet := allSentRows, trace := [] } :=
  ⟨by decide, handler_empty_eligible allSentRows demoSend (by decide)⟩

/-- An environment in which only `GOOGLE_PRIVATE_KEY` is unset. -/
def envMissingKey : Env :=
  { googleServiceAccountEmail := some "svc@spike.example"
    googlePrivateKey := none
    spreadsheetId := some "sheet-id"
    tenantId := some "tenant"
    clientId := some "client"
    clientSecret := some "secret" }

/-- An environment in which the three Graph credentials are unset. -/
def envMissingGraph : Env :=
  { googleServiceAccountEmail := some "svc@spike.example"
    googlePrivateKey := some "key"
    spreadsheetId := some "sheet-id"
    tenantId := none
    clientId := none
    clientSecret := none }

/-- C6 (refuted by the code): the code performs no presence check on any
required environment value.  With `GOOGLE_PRIVATE_KEY` unset, the sheet
credential construction throws only the generic TypeError of calling
`.replace` on `undefined`, a message that does not name the missing
variable; with the service-account email unset (key present) it raises no
error at all; and with tenant id, client id and client secret all unset the
Graph credential construction raises no error at all, passing `undefined`
through to the client. -/
theorem config_missing_no_failfast :
    getNewWaitlistEntriesAuth envMissingKey =
      Except.error "Cannot read properties of undefined (reading replace)" ∧
    getNewWaitlistEntriesAuth
        { envMissingKey with googleServiceAccountEmail := none, googlePrivateKey := some "k" } =
      Except.ok
        { email := none, key := "k", scopes := ["https://www.googleapis.com/auth/spreadsheets"] } ∧
    getGraphClientCredential envMissingGraph =
      { tenantId := none, clientId := none, clientSecret := none } :=
  ⟨rfl, rfl, rfl⟩

/-- C8: for an in-bounds index `i` of the reloaded sheet, `markUserAsEmailed`
returns the sheet with the row at position `i` replaced by the same row with
its "EmailSent" field set to "true"; moreover every entry of the eligible set
carries `rowIndex` equal to the original zero-based position of an eligible
row with that email, and entries appear in original row order (strictly
increasing row indexes). -/
theorem marker_sets_row_and_entries_indexed (sheet : List Row) (i : Nat) (r : Row)
    (rows : List Row) (hr : sheet[i]? = some r) :
    markUserAsEmailed sheet i =
      Except.ok (sheet.set i { email := r.email, emailSent := some "true" }) ∧
    (sheet.set i (markRow r))[i]? = some { email := r.email, emailSent := some "true" } ∧
    (∀ e ∈ getNewWaitlistEntries rows,
      ∃ row, rows[e.rowIndex]? = some row ∧ row.email = some e.email ∧
        rowEligible row = true) ∧
    List.Pairwise (fun a b => a.rowIndex < b.rowIndex) (getNewWaitlistEntries rows) := by
  refine ⟨markUserAsEmailed_ok hr, ?_, ?_, pairwise_entriesFrom rows 0⟩
  · rw [List.getElem?_set_self', hr]; rfl
  · intro e he
    rcases (mem_entriesFrom rows 0).mp he with ⟨j, row, hg, helig, rfl⟩
    refine ⟨row, by simpa [eligEntry] using hg, ?_, helig⟩
    simpa [eligEntry] using email_eq_of_rowEligible helig

theorem marker_sets_row_and_entries_indexed_witness :
    demoRows[1]? = some { email := some "b@x.com", emailSent := some "true" } ∧
    (markUserAsEmailed demoRows 1 =
        Except.ok (demoRows.set 1 { email := some "b@x.com", emailSent := some "true" }) ∧
      (demoRows.set 1 (markRow { email := some "b@x.com", emailSent := some "true" }))[1]? =
        some { email := some "b@x.com", emailSent := some "true" } ∧
      (∀ e ∈ getNewWaitlistEntries demoRows,
        ∃ row, demoRows[e.rowIndex]? = some row ∧ row.email = some e.email ∧
          rowEligible row = true) ∧
      List.Pairwise (fun a b => a.rowIndex < b.rowIndex) (getNewWaitlistEntries demoRows)) :=
  ⟨by decide,
   marker_sets_row_and_entries_indexed demoRows 1
     { email := some "b@x.com", emailSent := some "true" } demoRows (by decide)⟩

/-- C9: `markUserAsEmailed` indexes the reloaded row list without a bounds
check: it throws exactly when the given row index is at or beyond the end of
the reloaded list, and succeeds exactly when the index is within bounds. -/
theorem marker_throws_iff_out_of_bounds (sheet : List Row) (i : Nat) :
    (∃ msg, markUserAsEmailed sheet i = Except.error msg) ↔ sheet.length ≤ i := by
  unfold markUserAsEmailed
  cases h : sheet[i]? with
  | none =>
    simp only [List.getElem?_eq_none_iff] at h
    simpa using h
  | some r =>
    have := (List.getElem?_eq_some.mp h).1
    simp only [Option.some.injEq]
    constructor
    · rintro ⟨msg, hmsg⟩
      cases hmsg
    · intro hle
      omega

/-- C10: a single `markUserAsEmailed` call only replaces the "EmailSent"
field of the row at the given index: the sheet keeps its length (no row
added or deleted), every other position is unchanged, and the "Email" field
at the marked position is unchanged. -/
theorem marker_frame (sheet sheet2 : List Row) (i : Nat)
    (h : markUserAsEmailed sheet i = Except.ok sheet2) :
    sheet2.length = sheet.length ∧
    (∀ j, j ≠ i → sheet2[j]? = sheet[j]?) ∧
    (sheet2[i]?).map Row.email = (sheet[i]?).map Row.email := by
  unfold markUserAsEmailed at h
  cases hg : sheet[i]? with
  | none => rw [hg] at h; cases h
  | some r =>
    rw [hg] at h
    cases h
    refine ⟨List.length_set .., ?_, ?_⟩
    · intro j hj
      exact List.getElem?_set_ne (fun hij => hj hij.symm)
    · rw [List.getElem?_set_self', hg]
      rfl

theorem marker_frame_witness :
    markUserAsEmailed demoRows 0 =
      Except.ok
        [ { email := some "a@x.com", emailSent := some "true" }
        , { email := some "b@x.com", emailSent := some "true" }
        , { email := some "", emailSent := some "" } ] ∧
    ((([ { email := some "a@x.com", emailSent := some "true" }
        , { email := some "b@x.com", emailSent := some "true" }
        , { email := some "", emailSent := some "" } ] : List Row).length = demoRows.length) ∧
      (∀ j, j ≠ 0 →
        ([ { email := some "a@x.com", emailSent := some "true" }
         , { email := some "b@x.com", emailSent := some "true" }
         , { email := some "", emailSent := some "" } ] : List Row)[j]? = demoRows[j]?) ∧
      ((([ { email := some "a@x.com", emailSent := some "true" }
          , { email := some "b@x.com", emailSent := some "true" }
          , { email := some "", emailSent := some "" } ] : List Row)[0]?).map Row.email =
        (demoRows[0]?).map Row.email)) :=
  ⟨rfl, marker_frame demoRows _ 0 rfl⟩

theorem entries_rowIndex_lt {rows : List Row} {e : Entry}
    (h : e ∈ getNewWaitlistEntries rows) : e.rowIndex < rows.length := by
  simpa using rowIndex_lt_of_mem_entriesFrom h

theorem getNewWaitlistEntries_eq_nil {rows : List Row}
    (h : ∀ (j : Nat) (r : Row), rows[j]? = some r → rowEligible r = false) :
    getNewWaitlistEntries rows = [] := by
  refine List.eq_nil_iff_forall_not_mem.mpr fun x hx => ?_
  rcases (mem_entriesFrom rows 0).mp hx with ⟨j, r, hg, helig, _⟩
  rw [h j r hg] at helig
  cases helig

theorem rowEligible_markRow (r : Row) : rowEligible (markRow r) = false := by
  rcases r with ⟨e, s⟩
  rcases e with _ | e
  · rfl
  · have h1 : (("true" : String) == "") = false := by decide
    have h2 : (jsToLowerCase "true" != "true") = false := by decide
    simp [rowEligible, markRow, h1, h2]

theorem mark_not_mem_traceOf {pre : List Entry} {j : Nat}
    (h : ∀ p ∈ pre, p.rowIndex ≠ j) : Event.mark j ∉ traceOf pre := by
  intro hmem
  rcases List.mem_flatMap.mp hmem with ⟨p, hp, hev⟩
  rcases List.mem_cons.mp hev with h1 | h1
  · cases h1
  · rcases List.mem_cons.mp h1 with h2 | h2
    · cases h2
      exact h p hp rfl
    · cases h2

/-- C4: on a run where every send succeeds, the handler performs exactly one
send followed by exactly one mark per eligible row, pair after pair, in
fetch order: the side-effect trace is exactly the send/mark pairs of the
eligible entries in order. -/
theorem handler_trace_sequential (rows : List Row) (sendErr : String → Option String)
    (hsend : ∀ e ∈ getNewWaitlistEntries rows, sendErr e.email = none) :
    (runHandler rows sendErr).trace = traceOf (getNewWaitlistEntries rows) := by
  obtain ⟨sheet2, hrun, _, _, _⟩ :=
    processLoop_ok sendErr (getNewWaitlistEntries rows) rows hsend
      (fun e he => entries_rowIndex_lt he)
  by_cases hne : (getNewWaitlistEntries rows).length > 0
  · simp [runHandler, hne, hrun]
  · have hnil : getNewWaitlistEntries rows = [] := by
      cases h : getNewWaitlistEntries rows with
      | nil => rfl
      | cons a l => rw [h] at hne; simp at hne
    simp [runHandler, hnil, traceOf]

theorem handler_trace_sequential_witness :
    (∀ e ∈ getNewWaitlistEntries demoRows, demoSend e.email = none) ∧
    (runHandler demoRows demoSend).trace = traceOf (getNewWaitlistEntries demoRows) ∧
    (runHandler demoRows demoSend).trace = [Event.send "a@x.com", Event.mark 0] :=
  ⟨fun _ _ => rfl, handler_trace_sequential demoRows demoSend (fun _ _ => rfl), by decide⟩

/-- C5: letting the handler complete successfully (every send succeeds) and
recomputing the eligible set on the resulting sheet yields the empty set,
for every starting sheet: marking with "true" makes the filter exclude the
row, and unmarked rows were ineligible already. -/
theorem handler_rerun_eligible_empty (rows : List Row) (sendErr : String → Option String)
    (hsend : ∀ e ∈ getNewWaitlistEntries rows, sendErr e.email = none) :
    getNewWaitlistEntries (runHandler rows sendErr).sheet = [] := by
  by_cases hne : (getNewWaitlistEntries rows).length > 0
  · obtain ⟨sheet2, hrun, hlen, hmarked, hkept⟩ :=
      processLoop_ok sendErr (getNewWaitlistEntries rows) rows hsend
        (fun e he => entries_rowIndex_lt he)
    have hsheet : (runHandler rows sendErr).sheet = sheet2 := by
      simp [runHandler, hne, hrun]
    rw [hsheet]
    refine getNewWaitlistEntries_eq_nil fun j r hg => ?_
    by_cases hj : ∃ e ∈ getNewWaitlistEntries rows, e.rowIndex = j
    · have hm := hmarked j hj
      rw [hg] at hm
      cases hrj : rows[j]? with
      | none => rw [hrj] at hm; cases hm
      | some r0 =>
        rw [hrj] at hm
        cases hm
        exact rowEligible_markRow r0
    · push_neg at hj
      have hk := hkept j hj
      rw [hg] at hk
      cases helig : rowEligible r with
      | false => rfl
      | true =>
        have hmem : eligEntry r (0 + j) ∈ getNewWaitlistEntries rows :=
          (mem_entriesFrom rows 0).mpr ⟨j, r, hk.symm, helig, rfl⟩
        have := hj _ hmem
        simp [eligEntry] at this
  · have hnil : getNewWaitlistEntries rows = [] := by
      cases h : getNewWaitlistEntries rows with
      | nil => rfl
      | cons a l => rw [h] at hne; simp at hne
    have hsheet : (runHandler rows sendErr).sheet = rows := by
      simp [runHandler, hnil]
    rw [hsheet]
    exact hnil

theorem handler_rerun_eligible_empty_witness :
    (∀ e ∈ getNewWaitlistEntries demoRows, demoSend e.email = none) ∧
    getNewWaitlistEntries (runHandler demoRows demoSend).sheet = [] :=
  ⟨fun _ _ => rfl, handler_rerun_eligible_empty demoRows demoSend (fun _ _ => rfl)⟩

/-- C7: when every send succeeds on a non-empty eligible set, the handler
answers 200 with body "Successfully sent emails to N new waitlist entries"
where N is the number of eligible rows (the witness instantiates the spec's
three-row scenario: one eligible entry for a@x.com at row 0, one send, row
0 marked, N = 1). -/
theorem handler_success_response (rows : List Row) (sendErr : String → Option String)
    (hne : getNewWaitlistEntries rows ≠ [])
    (hsend : ∀ e ∈ getNewWaitlistEntries rows, sendErr e.email = none) :
    (runHandler rows sendErr).status = 200 ∧
    (runHandler rows sendErr).body =
      "Successfully sent emails to " ++ toString (getNewWaitlistEntries rows).length ++
        " new waitlist entries" := by
  obtain ⟨sheet2, hrun, _, _, _⟩ :=
    processLoop_ok sendErr (getNewWaitlistEntries rows) rows hsend
      (fun e he => entries_rowIndex_lt he)
  have hlen : (getNewWaitlistEntries rows).length > 0 := by
    cases h : getNewWaitlistEntries rows with
    | nil => exact absurd h hne
    | cons a l => simp [h]
  exact ⟨by simp [runHandler, hlen, hrun], by simp [runHandler, hlen, hrun]⟩

theorem handler_success_response_witness :
    getNewWaitlistEntries demoRows ≠ [] ∧
    getNewWaitlistEntries demoRows = [{ email := "a@x.com", rowIndex := 0 }] ∧
    ((runHandler demoRows demoSend).status = 200 ∧
      (runHandler demoRows demoSend).body =
        "Successfully sent emails to " ++ toString (getNewWaitlistEntries demoRows).length ++
          " new waitlist entries") ∧
    (runHandler demoRows demoSend).body = "Successfully sent emails to 1 new waitlist entries" ∧
    (runHandler demoRows demoSend).trace = [Event.send "a@x.com", Event.mark 0] ∧
    (runHandler demoRows demoSend).sheet =
      [ { email := some "a@x.com", emailSent := some "true" }
      , { email := some "b@x.com", emailSent := some "true" }
      , { email := some "", emailSent := some "" } ] :=
  ⟨by decide, by decide,
   handler_success_response demoRows demoSend (by decide) (fun _ _ => rfl),
   by decide, by decide, by decide⟩

/-- C2: when the mail API throws (message `msg`) on the eligible entry `u`,
the sends on the earlier entries `pre` having succeeded, the handler answers
500 with body "Error processing waitlist: msg"; the side effects are exactly
the send/mark pairs of the earlier entries, so each earlier row is marked in
the final sheet, while the sheet row of the failing entry and of every later
eligible entry is unchanged and never the target of a mark event: the loop
aborts with no partial-success continuation. -/
theorem handler_midloop_failure (rows : List Row) (sendErr : String → Option String)
    (pre : List Entry) (u : Entry) (post : List Entry) (msg : String)
    (hsplit : getNewWaitlistEntries rows = pre ++ u :: post)
    (hpre : ∀ e ∈ pre, sendErr e.email = none)
    (hu : sendErr u.email = some msg) :
    (runHandler rows sendErr).status = 500 ∧
    (runHandler rows sendErr).body = "Error processing waitlist: " ++ msg ∧
    (runHandler rows sendErr).trace = traceOf pre ∧
    (∀ e ∈ pre,
      (runHandler rows sendErr).sheet[e.rowIndex]? = (rows[e.rowIndex]?).map markRow) ∧
    (∀ q ∈ u :: post,
      (runHandler rows sendErr).sheet[q.rowIndex]? = rows[q.rowIndex]? ∧
      Event.mark q.rowIndex ∉ (runHandler rows sendErr).trace) := by
  have hb : ∀ e ∈ pre, e.rowIndex < rows.length := fun e he =>
    entries_rowIndex_lt (by rw [hsplit]; exact List.mem_append_left _ he)
  obtain ⟨sheet2, hrun, hlen, hmarked, hkept⟩ := processLoop_err sendErr u post hu pre rows hpre hb
  have hne : (getNewWaitlistEntries rows).length > 0 := by
    rw [hsplit]; simp
  have hres : runHandler rows sendErr =
      { status := 500, body := "Error processing waitlist: " ++ msg
        sheet := sheet2, trace := traceOf pre } := by
    simp [runHandler, hne, hsplit, hrun]
  have hpw : ∀ p ∈ pre, ∀ q ∈ u :: post, p.rowIndex < q.rowIndex := by
    have := pairwise_entriesFrom rows 0
    rw [show entriesFrom rows 0 = getNewWaitlistEntries rows from rfl, hsplit] at this
    exact fun p hp q hq => (List.pairwise_append.mp this).2.2 p hp q hq
  rw [hres]
  refine ⟨rfl, rfl, rfl, ?_, ?_⟩
  · intro e he
    exact hmarked e.rowIndex ⟨e, he, rfl⟩
  · intro q hq
    have hne' : ∀ p ∈ pre, p.rowIndex ≠ q.rowIndex :=
      fun p hp => Nat.ne_of_lt (hpw p hp q hq)
    exact ⟨hkept q.rowIndex hne', mark_not_mem_traceOf hne'⟩

/-- The two-eligible-row sheet of the spec's failure scenario. -/
def failRows : List Row :=
  [ { email := some "a@x.com", emailSent := none }
  , { email := some "b@x.com", emailSent := some "" } ]

/-- A mail oracle that throws "boom" on a@x.com and succeeds elsewhere. -/
def failSend : String → Option String :=
  fun e => if e == "a@x.com" then some "boom" else none

theorem handler_midloop_failure_witness :
    (getNewWaitlistEntries failRows =
      [] ++ { email := "a@x.com", rowIndex := 0 } ::
        [{ email := "b@x.com", rowIndex := 1 }] ∧
      (∀ e ∈ ([] : List Entry), failSend e.email = none) ∧
      failSend "a@x.com" = some "boom") ∧
    ((runHandler failRows failSend).status = 500 ∧
      (runHandler failRows failSend).body = "Error processing waitlist: " ++ "boom" ∧
      (runHandler failRows failSend).trace = traceOf [] ∧
      (∀ e ∈ ([] : List Entry),
        (runHandler failRows failSend).sheet[e.rowIndex]? =
          (failRows[e.rowIndex]?).map markRow) ∧
      (∀ q ∈ ([ { email := "a@x.com", rowIndex := 0 }
              , { email := "b@x.com", rowIndex := 1 } ] : List Entry),
        (runHandler failRows failSend).sheet[q.rowIndex]? = failRows[q.rowIndex]? ∧
        Event.mark q.rowIndex ∉ (runHandler failRows failSend).trace)) ∧
    (runHandler failRows failSend).sheet = failRows ∧
    (runHandler failRows failSend).trace = [] :=
  ⟨⟨by decide, by simp, by decide⟩,
   handler_midloop_failure failRows failSend []
     { email := "a@x.com", rowIndex := 0 } [{ email := "b@x.com", rowIndex := 1 }] "boom"
     (by decide) (by simp) (by decide),
   by decide, by decide⟩

end Waitlist
